import Mathlib

/-!
Verification of PNGtuberSimple (src/script.py).

This file contains a shallow embedding of the program's core logic:
the volume-monitor polling state machine (`VolumeMonitor.run`,
`VolumeMonitor.stop`), the image-selection callback (`App.update_image`),
the resize animation (`App.animate_resize`), the scale adjustment
handlers (`App.adjust_scale`, `App.increase_size`, `App.decrease_size`),
startup verification (`App.__init__`) and shutdown (`App.closeEvent`).

Python floats are modelled by exact rationals (ℚ); the only rounding the
program performs is `round(x, 4)`, modelled by `round4` below with
Python's round-half-to-even tie rule.
-/

namespace PNGtuber

/-- Which of the two configured images is displayed.  `high` stands for
`image_high_orig` (IMAGE_HIGH_VOLUME), `low` for `image_low_orig`
(IMAGE_LOW_VOLUME). -/
inductive ImageChoice where
  | high
  | low
deriving DecidableEq, Repr

/-- The view state of `App` relevant to image selection and scaling:
`self.current_image` (None until first selection), `self.scale`,
`self.target_scale`, plus a log of the `resize_image` calls performed,
each recording the image rendered and the scale used
(src/script.py lines 131-133, 149, 168-174). -/
structure DisplayState where
  currentImage : Option ImageChoice
  scale : ℚ
  targetScale : ℚ
  renders : List (ImageChoice × ℚ)
deriving DecidableEq, Repr

/-- The threshold comparison of `App.update_image`
(src/script.py line 159): `volume > VOLUME_THRESHOLD` selects the
high-volume image, otherwise the low one. -/
def selectImage (threshold v : ℚ) : ImageChoice :=
  if v > threshold then .high else .low

/-- `App.update_image` (src/script.py lines 157-166): pick the image by
threshold; if it differs from `self.current_image`, store it and call
`resize_image` (which renders the newly current image at `self.scale`);
otherwise do nothing. -/
def update_image (threshold v : ℚ) (s : DisplayState) : DisplayState :=
  let newImage := selectImage threshold v
  if s.currentImage ≠ some newImage then
    { s with currentImage := some newImage
             renders := s.renders ++ [(newImage, s.scale)] }
  else
    s

/-- Python's builtin `abs` on ℚ (kernel-reducible, used so that concrete
instances of the animation can be settled by `decide`). -/
def pyAbs (q : ℚ) : ℚ := if q < 0 then -q else q

/-- Round-half-to-even on ℚ, the tie rule of Python's builtin `round`. -/
def roundHalfEven (q : ℚ) : ℤ :=
  let f := ⌊q⌋
  let r := q - f
  if r < 1/2 then f
  else if 1/2 < r then f + 1
  else if 2 ∣ f then f else f + 1

/-- Python's `round(x, 4)` (src/script.py line 196): round to the nearest
multiple of 1/10000, ties to even. -/
def round4 (q : ℚ) : ℚ := (roundHalfEven (q * 10000) : ℚ) / 10000

/-- `App.animate_resize` (src/script.py lines 191-197), acting on
`self.scale` with `self.target_scale` fixed: if
`abs(target_scale - scale) > 0.001`, add `0.02` when `target_scale >
scale` and `-0.02` otherwise, then round to 4 decimal digits (the
re-render it triggers does not change the scale). -/
def animate_resize (target scale : ℚ) : ℚ :=
  if pyAbs (target - scale) > 1/1000 then
    round4 (scale + (if target > scale then 1/50 else -(1/50)))
  else
    scale

/-- The animation trajectory of §8's convergence scenario: `self.scale`
after `n` timer ticks of `animate_resize`, starting from `scale = 1.0`
with `target_scale = 1.5` held fixed. -/
def animTraj : ℕ → ℚ
  | 0 => 1
  | n + 1 => animate_resize (3/2) (animTraj n)

/-- `App.adjust_scale` (src/script.py lines 176-181), acting on
`self.target_scale`: wheel delta > 0 bumps the target scale up by 0.1
clamped to 2.0, otherwise down by 0.1 clamped to 0.1. -/
def adjust_scale (delta : ℤ) (t : ℚ) : ℚ :=
  if delta > 0 then min 2 (t + 1/10) else max (1/10) (t - 1/10)

/-- `App.increase_size` (src/script.py lines 183-185). -/
def increase_size (t : ℚ) : ℚ := min 2 (t + 1/10)

/-- `App.decrease_size` (src/script.py lines 187-189). -/
def decrease_size (t : ℚ) : ℚ := max (1/10) (t - 1/10)

/-- A user event that mutates `target_scale`: a wheel event with its
angle delta (routed through `ImageLabel.wheelEvent` to `adjust_scale`,
src/script.py lines 107-109), or one of the two key bindings. -/
inductive ScaleEvent where
  | wheel (delta : ℤ)
  | increaseKey
  | decreaseKey

/-- Dispatch one scale event to its handler. -/
def applyScaleEvent (e : ScaleEvent) (t : ℚ) : ℚ :=
  match e with
  | .wheel d => adjust_scale d t
  | .increaseKey => increase_size t
  | .decreaseKey => decrease_size t

/-- `target_scale` after a sequence of scale events, starting from the
initial value 1.0 set in `App.__init__` (src/script.py line 133). -/
def runScaleEvents (evs : List ScaleEvent) : ℚ :=
  evs.foldl (fun t e => applyScaleEvent e t) 1

/-! ## VolumeMonitor -/

/-- One entry of `AudioUtilities.GetAllSessions()`: `processName` is
`session.Process.name()` when `session.Process` is set, `none` when
`session.Process` is None (src/script.py line 54 guards on both). -/
structure AudioSession where
  processName : Option String
deriving DecidableEq, Repr

/-- The session-matching loop of `VolumeMonitor.run`
(src/script.py lines 53-56): the first session whose process exists and
whose name equals TARGET_APP under case-insensitive comparison
(`.lower()` on both sides). -/
def findTargetSession (sessions : List AudioSession) (target : String) :
    Option AudioSession :=
  sessions.find? fun s =>
    match s.processName with
    | some n => n.toLower == target.toLower
    | none => false

/-- Control point of the `VolumeMonitor.run` worker.  `searching` is the
head of the outer `while self.running` loop (src/script.py line 48);
`attached` is the head of the inner `while self.running` loop after a
target session was found (line 63); `exited` means both loops were left
because `self.running` was observed false. -/
inductive MPhase where
  | searching
  | attached
  | exited
deriving DecidableEq, Repr

/-- A configuration of the worker: its control point, the elapsed time
(seconds, rational) at which its next flag check happens, the samples
delivered to the callback so far (time, value), and the number of
`"Error fetching volume"` messages printed (src/script.py line 68). -/
structure MCfg where
  phase : MPhase
  time : ℚ
  emits : List (ℚ × ℚ)
  errors : ℕ
deriving DecidableEq, Repr

/-- Environment of a `VolumeMonitor.run` execution: the configured
TARGET_APP name, the sessions the OS reports when enumeration happens at
a given time, the result of `meter.GetPeakValue()` at a given time
(`none` models the call raising), and the time at which `stop()` sets
`self.running = False`.  `self.running` is read only in the two
`while self.running` conditions, so at a check at time `t` the flag is
true iff `t < stopAt`. -/
structure MonitorEnv where
  target : String
  sessionsAt : ℚ → List AudioSession
  readPeak : ℚ → Option ℚ
  stopAt : ℚ

/-- One iteration of `VolumeMonitor.run` between two consecutive reads of
`self.running` (src/script.py lines 48-74).  From `searching`: if the
flag is still set, enumerate sessions; a match moves to the inner loop
(`attached`) with no sample emitted; no match emits 0.0 and sleeps 15 s
(`time.sleep(15)` is not interrupted by the flag, which is next read at
the outer loop head).  From `attached`: if the flag is still set, try
`GetPeakValue`; success emits the value, an exception prints the error
and emits 0.0; either way sleep 0.1 s and recheck.  A false flag leaves
the loops (`exited`); the inner loop has no other exit, and on leaving it
the outer condition reads the same false flag. -/
def monitorStep (env : MonitorEnv) (c : MCfg) : MCfg :=
  match c.phase with
  | .exited => c
  | .searching =>
    if c.time < env.stopAt then
      match findTargetSession (env.sessionsAt c.time) env.target with
      | some _ => { c with phase := .attached }
      | none => { c with emits := c.emits ++ [(c.time, 0)], time := c.time + 15 }
    else
      { c with phase := .exited }
  | .attached =>
    if c.time < env.stopAt then
      match env.readPeak c.time with
      | some v => { c with emits := c.emits ++ [(c.time, v)], time := c.time + 1/10 }
      | none => { c with emits := c.emits ++ [(c.time, 0)],
                         errors := c.errors + 1,
                         time := c.time + 1/10 }
    else
      { c with phase := .exited }

/-- The worker's configuration when `run` starts: outer loop head at
time 0, nothing emitted. -/
def initialMCfg : MCfg := { phase := .searching, time := 0, emits := [], errors := 0 }

/-- `n` iterations of the worker loop from a given configuration. -/
def monitorSteps (env : MonitorEnv) : ℕ → MCfg → MCfg
  | 0, c => c
  | n + 1, c => monitorStep env (monitorSteps env n c)

/-- `n` iterations of the worker loop from the start of `run`. -/
def monitorRun (env : MonitorEnv) (n : ℕ) : MCfg :=
  monitorSteps env n initialMCfg

/-- An environment in which the target application never appears:
session enumeration always returns the empty list and `stop()` is called
at time `stopAt`. -/
def absentEnv (stopAt : ℚ) : MonitorEnv :=
  { target := "EDCoPilot.exe"
    sessionsAt := fun _ => []
    readPeak := fun _ => none
    stopAt := stopAt }

/-! ## Stop and shutdown -/

/-- The state `VolumeMonitor.stop` acts on: the `self.running` flag
(src/script.py line 42). -/
structure MonitorCtl where
  running : Bool
deriving DecidableEq, Repr

/-- `VolumeMonitor.stop` (src/script.py lines 78-80): set
`self.running = False`.  It performs no wait and no join; as a pure
state update it returns at once. -/
def stop (m : MonitorCtl) : MonitorCtl := { m with running := false }

/-- The time at which `Thread.join(timeout)` returns, given the time at
which the worker terminates (`none` if it never does), both measured
from the join call: join returns when the worker terminates or when the
timeout elapses, whichever is first. -/
def joinReturnTime (timeout : ℚ) (termAt : Option ℚ) : ℚ :=
  match termAt with
  | some tt => min tt timeout
  | none => timeout

/-- Outcome of `App.closeEvent`: the monitor flag after `stop()`, how
long the `join` blocked, and whether the close event was accepted. -/
structure CloseOutcome where
  monitorAfterStop : MonitorCtl
  joinWaited : ℚ
  accepted : Bool
deriving DecidableEq, Repr

/-- `App.closeEvent` (src/script.py lines 199-204): print a message, call
`self.monitor.stop()`, call `self.monitor.join(timeout=2)`, then
`event.accept()` unconditionally — acceptance does not depend on whether
the worker actually terminated within the timeout. -/
def closeEvent (m : MonitorCtl) (workerTermAt : Option ℚ) : CloseOutcome :=
  { monitorAfterStop := stop m
    joinWaited := joinReturnTime 2 workerTermAt
    accepted := true }

/-! ## App startup -/

/-- The configuration fields of CONFIG that the verified core reads
(src/script.py lines 15-24, 120). -/
structure AppConfig where
  targetApp : String
  volumeThreshold : ℚ
  imageHigh : String
  imageLow : String

/-- The externally visible steps of `App.__init__` relevant to startup
verification, in source order (src/script.py lines 115-155). -/
inductive InitAction where
  | verifyImages
  | printDiagnostic
  | exitProgram (code : ℕ)
  | loadImages
  | startMonitor
  | deliverInitialSample
deriving DecidableEq, Repr

/-- `App.__init__` (src/script.py lines 115-155): first check that both
image files exist (line 123); if either is missing, print
`"Error: Image files not found."` and `sys.exit(1)` — nothing after that
line runs.  Otherwise load the two images, set `scale = target_scale =
1.0`, start the `VolumeMonitor`, set `current_image = None` and call
`update_image(0.0)`.  Returns the trace of startup actions and the
resulting display state (`none` when startup aborted). -/
def appInit (fsExists : String → Bool) (cfg : AppConfig) :
    List InitAction × Option DisplayState :=
  if ¬ fsExists cfg.imageHigh ∨ ¬ fsExists cfg.imageLow then
    ([.verifyImages, .printDiagnostic, .exitProgram 1], none)
  else
    let s0 : DisplayState :=
      { currentImage := none, scale := 1, targetScale := 1, renders := [] }
    ([.verifyImages, .loadImages, .startMonitor, .deliverInitialSample],
      some (update_image cfg.volumeThreshold 0 s0))

/-! ## Concrete instances used to exercise the theorems -/

/-- A monitor environment with one session whose process name equals the
target, the meter reading 0.5, and `stop()` called at time 1. -/
def presentEnv : MonitorEnv :=
  { target := "edcopilot.exe"
    sessionsAt := fun _ => [{ processName := some "edcopilot.exe" }]
    readPeak := fun _ => some (1/2)
    stopAt := 1 }

/-- An attached configuration at time 0 with empty emission history. -/
def attachedCfg : MCfg := { phase := .attached, time := 0, emits := [], errors := 0 }

/-- The default configuration values of src/script.py lines 15-24. -/
def sampleConfig : AppConfig :=
  { targetApp := "EDCoPilot.exe"
    volumeThreshold := 1/5
    imageHigh := "640px-Neurofumo.png"
    imageLow := "640px-Neurofumodark.png" }

/-- The display state `App.__init__` reaches just before line 150:
no image selected yet, scales 1.0, nothing rendered. -/
def initialDisplay : DisplayState :=
  { currentImage := none, scale := 1, targetScale := 1, renders := [] }

/-! ## Helper lemmas -/

lemma update_image_currentImage (th v : ℚ) (s : DisplayState) :
    (update_image th v s).currentImage = some (selectImage th v) := by
  simp only [update_image]
  split_ifs with h
  · rfl
  · exact not_not.mp fun hne => h hne

lemma roundHalfEven_intCast (k : ℤ) : roundHalfEven (k : ℚ) = k := by
  simp only [roundHalfEven, Int.floor_intCast, sub_self]
  norm_num

lemma round4_eq_self (q : ℚ) (k : ℤ) (h : q * 10000 = (k : ℚ)) : round4 q = q := by
  rw [round4, h, roundHalfEven_intCast, ← h]
  field_simp

lemma animate_resize_step (m : ℤ) (h1 : 50 ≤ m) (h2 : m < 75) :
    animate_resize (3/2) ((m : ℚ)/50) = ((m : ℚ) + 1)/50 := by
  have hm1 : (50 : ℚ) ≤ (m : ℚ) := by exact_mod_cast h1
  have hm2 : (m : ℚ) ≤ 74 := by
    have : m ≤ 74 := by omega
    exact_mod_cast this
  have hgap : (1 : ℚ)/50 ≤ 3/2 - (m : ℚ)/50 := by linarith
  have hcond : pyAbs (3/2 - (m : ℚ)/50) > 1/1000 := by
    rw [pyAbs, if_neg (by linarith)]
    linarith
  have hgt : (3 : ℚ)/2 > (m : ℚ)/50 := by linarith
  rw [animate_resize, if_pos hcond, if_pos hgt]
  have hsum : (m : ℚ)/50 + 1/50 = ((m : ℚ) + 1)/50 := by ring
  rw [hsum]
  apply round4_eq_self _ ((m + 1) * 200)
  push_cast
  ring

lemma animTraj_eq (n : ℕ) (h : n ≤ 25) : animTraj n = (50 + (n : ℚ))/50 := by
  induction n with
  | zero => simp [animTraj]
  | succ n ih =>
    have hn : n ≤ 25 := Nat.le_of_succ_le h
    have hn24 : n ≤ 24 := Nat.lt_succ_iff.mp h
    rw [animTraj, ih hn]
    have hcast : (50 + (n : ℚ))/50 = (((50 + n : ℤ) : ℚ))/50 := by push_cast; ring
    rw [hcast, animate_resize_step (50 + n) (by omega) (by omega)]
    push_cast
    ring

lemma animate_resize_fixed : animate_resize (3/2) (3/2) = 3/2 := by
  rw [animate_resize, if_neg]
  rw [pyAbs, sub_self, if_neg (by norm_num)]
  norm_num

lemma animTraj_final : animTraj 25 = 3/2 := by
  rw [animTraj_eq 25 (le_refl 25)]
  norm_num

lemma animTraj_ge_25 (m : ℕ) (h : 25 ≤ m) : animTraj m = 3/2 := by
  induction m with
  | zero => omega
  | succ m ih =>
    rcases Nat.lt_or_ge 25 (m + 1) with hlt | hge
    · rw [animTraj, ih (by omega), animate_resize_fixed]
    · have : m + 1 = 25 := by omega
      rw [this, animTraj_final]

lemma pyAbs_le_of (x b : ℚ) (h1 : -b ≤ x) (h2 : x ≤ b) : pyAbs x ≤ b := by
  rw [pyAbs]
  split_ifs with h
  · linarith
  · exact h2

lemma applyScaleEvent_mem (e : ScaleEvent) (t : ℚ)
    (h1 : 1/10 ≤ t) (h2 : t ≤ 2) :
    1/10 ≤ applyScaleEvent e t ∧ applyScaleEvent e t ≤ 2 := by
  cases e with
  | wheel d =>
    rw [applyScaleEvent, adjust_scale]
    split_ifs with hd
    · exact ⟨le_min (by norm_num) (by linarith), min_le_left _ _⟩
    · exact ⟨le_max_left _ _, max_le (by norm_num) (by linarith)⟩
  | increaseKey =>
    rw [applyScaleEvent, increase_size]
    exact ⟨le_min (by norm_num) (by linarith), min_le_left _ _⟩
  | decreaseKey =>
    rw [applyScaleEvent, decrease_size]
    exact ⟨le_max_left _ _, max_le (by norm_num) (by linarith)⟩

lemma foldl_scale_mem (evs : List ScaleEvent) (t : ℚ)
    (h1 : 1/10 ≤ t) (h2 : t ≤ 2) :
    1/10 ≤ evs.foldl (fun t e => applyScaleEvent e t) t ∧
    evs.foldl (fun t e => applyScaleEvent e t) t ≤ 2 := by
  induction evs generalizing t with
  | nil => exact ⟨h1, h2⟩
  | cons e rest ih =>
    simp only [List.foldl_cons]
    obtain ⟨g1, g2⟩ := applyScaleEvent_mem e t h1 h2
    exact ih _ g1 g2

lemma monitorStep_searching_none (env : MonitorEnv) (c : MCfg)
    (hp : c.phase = .searching) (hlt : c.time < env.stopAt)
    (hfind : findTargetSession (env.sessionsAt c.time) env.target = none) :
    monitorStep env c =
      { c with emits := c.emits ++ [(c.time, 0)], time := c.time + 15 } := by
  rcases c with ⟨p, t, em, er⟩
  simp only at hp
  subst hp
  simp only at hlt hfind
  simp only [monitorStep, if_pos hlt, hfind]

lemma monitorStep_searching_found (env : MonitorEnv) (c : MCfg)
    (hp : c.phase = .searching) (hlt : c.time < env.stopAt)
    (hfind : (findTargetSession (env.sessionsAt c.time) env.target).isSome) :
    monitorStep env c = { c with phase := .attached } := by
  rcases c with ⟨p, t, em, er⟩
  simp only at hp
  subst hp
  simp only at hlt hfind
  obtain ⟨s, hs⟩ := Option.isSome_iff_exists.mp hfind
  simp only [monitorStep, if_pos hlt, hs]

lemma monitorStep_searching_stop (env : MonitorEnv) (c : MCfg)
    (hp : c.phase = .searching) (hge : ¬ c.time < env.stopAt) :
    monitorStep env c = { c with phase := .exited } := by
  rcases c with ⟨p, t, em, er⟩
  simp only at hp
  subst hp
  simp only at hge
  simp only [monitorStep, if_neg hge]

lemma monitorStep_attached_ok (env : MonitorEnv) (c : MCfg) (v : ℚ)
    (hp : c.phase = .attached) (hlt : c.time < env.stopAt)
    (hr : env.readPeak c.time = some v) :
    monitorStep env c =
      { c with emits := c.emits ++ [(c.time, v)], time := c.time + 1/10 } := by
  rcases c with ⟨p, t, em, er⟩
  simp only at hp
  subst hp
  simp only at hlt hr
  simp only [monitorStep, if_pos hlt, hr]

lemma monitorStep_attached_err (env : MonitorEnv) (c : MCfg)
    (hp : c.phase = .attached) (hlt : c.time < env.stopAt)
    (hr : env.readPeak c.time = none) :
    monitorStep env c =
      { c with emits := c.emits ++ [(c.time, 0)], errors := c.errors + 1,
               time := c.time + 1/10 } := by
  rcases c with ⟨p, t, em, er⟩
  simp only at hp
  subst hp
  simp only at hlt hr
  simp only [monitorStep, if_pos hlt, hr]

lemma monitorStep_not_searching (env : MonitorEnv) (c : MCfg)
    (h : c.phase ≠ .searching) : (monitorStep env c).phase ≠ .searching := by
  rcases c with ⟨p, t, em, er⟩
  cases p with
  | searching => exact absurd rfl h
  | attached =>
    simp only [monitorStep]
    split_ifs with hlt
    · cases hrp : env.readPeak t <;> simp
    · simp
  | exited => exact h

lemma monitorRun_succ (env : MonitorEnv) (n : ℕ) :
    monitorRun env (n + 1) = monitorStep env (monitorRun env n) := rfl

lemma monitorRun_absent_searching (σ : ℚ) (n : ℕ)
    (h : ∀ j : ℕ, j < n → 15 * (j : ℚ) < σ) :
    (monitorRun (absentEnv σ) n).phase = .searching ∧
    (monitorRun (absentEnv σ) n).time = 15 * n := by
  induction n with
  | zero =>
    constructor
    · rfl
    · norm_num [monitorRun, monitorSteps, initialMCfg]
  | succ n ih =>
    obtain ⟨hp, ht⟩ := ih fun j hj => h j (Nat.lt_succ_of_lt hj)
    have hlt : (monitorRun (absentEnv σ) n).time < (absentEnv σ).stopAt := by
      rw [ht]
      exact h n (Nat.lt_succ_self n)
    rw [monitorRun_succ,
      monitorStep_searching_none _ _ hp hlt (by rfl)]
    constructor
    · exact hp
    · simp only [ht]
      push_cast
      ring

/-! ## Claim theorems -/

/-- Claim C1: for every volume sample `v` delivered to `update_image`,
the High image is selected iff `v` is strictly greater than the
configured volume threshold, and the Low image is selected otherwise;
in particular `v` exactly equal to the threshold selects Low. -/
theorem update_image_threshold (th v : ℚ) (s : DisplayState) :
    (update_image th v s).currentImage = some (selectImage th v) ∧
    (selectImage th v = .high ↔ th < v) ∧
    selectImage th th = .low := by
  refine ⟨update_image_currentImage th v s, ?_, ?_⟩
  · rw [selectImage]
    split_ifs with h
    · simp [h]
    · simp [h]
  · rw [selectImage, if_neg (lt_irrefl th)]

/-- Claim C4: starting from `scale = 1.0` with `target_scale = 1.5`,
each `animate_resize` tick adds the fixed step 0.02 (and after rounding
to 4 digits the result is exact), strictly decreases the distance
|target − current|, the distance stays above the 0.001 cutoff for the
first 25 ticks, equals 0 at tick 25, and every later tick changes
nothing. -/
theorem animation_convergence :
    (∀ n, n < 25 →
        animTraj (n + 1) - animTraj n = 1/50 ∧
        pyAbs (3/2 - animTraj (n + 1)) < pyAbs (3/2 - animTraj n) ∧
        1/1000 < pyAbs (3/2 - animTraj n)) ∧
    animTraj 25 = 3/2 ∧
    (∀ m, 25 ≤ m → animTraj m = animTraj 25) := by
  refine ⟨?_, animTraj_final, ?_⟩
  · intro n hn
    have hcast : (n : ℚ) ≤ 24 := by exact_mod_cast Nat.lt_succ_iff.mp hn
    have hcast0 : (0 : ℚ) ≤ (n : ℚ) := Nat.cast_nonneg n
    have e1 : animTraj n = (50 + (n : ℚ))/50 := animTraj_eq n (by omega)
    have e2 : animTraj (n + 1) = (50 + ((n : ℚ) + 1))/50 := by
      rw [animTraj_eq (n + 1) (by omega)]
      push_cast
      ring_nf
    have p1 : pyAbs (3/2 - animTraj n) = (25 - (n : ℚ))/50 := by
      rw [e1, pyAbs, if_neg (by linarith)]
      ring
    have p2 : pyAbs (3/2 - animTraj (n + 1)) = (24 - (n : ℚ))/50 := by
      rw [e2, pyAbs, if_neg (by linarith)]
      ring
    refine ⟨?_, ?_, ?_⟩
    · rw [e1, e2]; ring
    · rw [p1, p2]; linarith
    · rw [p1]; linarith
  · intro m hm
    rw [animTraj_ge_25 m hm, animTraj_final]

/-- Witness for C4: the first tick moves from 1.0 to 1.02, strictly
shrinking the distance to 1.5, and tick 26 changes nothing. -/
theorem animation_convergence_witness :
    (animTraj 1 - animTraj 0 = 1/50 ∧
     pyAbs (3/2 - animTraj 1) < pyAbs (3/2 - animTraj 0) ∧
     1/1000 < pyAbs (3/2 - animTraj 0)) ∧
    animTraj 26 = animTraj 25 :=
  ⟨animation_convergence.1 0 (by norm_num),
   animation_convergence.2.2 26 (by norm_num)⟩

/-- Claim C5: from the initial `target_scale = 1.0`, any sequence of
wheel/key scale events leaves `target_scale` within [0.1, 2.0], and a
single event moves it by at most 0.1. -/
theorem target_scale_clamped :
    (∀ evs : List ScaleEvent,
        1/10 ≤ runScaleEvents evs ∧ runScaleEvents evs ≤ 2) ∧
    (∀ (e : ScaleEvent) (t : ℚ), 1/10 ≤ t → t ≤ 2 →
        pyAbs (applyScaleEvent e t - t) ≤ 1/10) := by
  constructor
  · intro evs
    exact foldl_scale_mem evs 1 (by norm_num) (by norm_num)
  · intro e t h1 h2
    apply pyAbs_le_of
    · cases e with
      | wheel d =>
        rw [applyScaleEvent, adjust_scale]
        split_ifs with hd
        · have := le_min (show t - 1/10 ≤ 2 by linarith)
            (show t - 1/10 ≤ t + 1/10 by linarith)
          linarith [this]
        · linarith [le_max_right (1/10 : ℚ) (t - 1/10)]
      | increaseKey =>
        rw [applyScaleEvent, increase_size]
        have := le_min (show t - 1/10 ≤ 2 by linarith)
          (show t - 1/10 ≤ t + 1/10 by linarith)
        linarith [this]
      | decreaseKey =>
        rw [applyScaleEvent, decrease_size]
        linarith [le_max_right (1/10 : ℚ) (t - 1/10)]
    · cases e with
      | wheel d =>
        rw [applyScaleEvent, adjust_scale]
        split_ifs with hd
        · linarith [min_le_right (2 : ℚ) (t + 1/10)]
        · have := max_le (show (1:ℚ)/10 ≤ t + 1/10 by linarith)
            (show t - 1/10 ≤ t + 1/10 by linarith)
          linarith [this]
      | increaseKey =>
        rw [applyScaleEvent, increase_size]
        linarith [min_le_right (2 : ℚ) (t + 1/10)]
      | decreaseKey =>
        rw [applyScaleEvent, decrease_size]
        have := max_le (show (1:ℚ)/10 ≤ t + 1/10 by linarith)
          (show t - 1/10 ≤ t + 1/10 by linarith)
        linarith [this]

/-- Witness for C5: one increase event from the initial state stays in
range, and a single increase from 1.0 moves the target by at most 0.1. -/
theorem target_scale_clamped_witness :
    (1/10 ≤ runScaleEvents [ScaleEvent.increaseKey] ∧
     runScaleEvents [ScaleEvent.increaseKey] ≤ 2) ∧
    pyAbs (applyScaleEvent ScaleEvent.increaseKey 1 - 1) ≤ 1/10 :=
  ⟨target_scale_clamped.1 [ScaleEvent.increaseKey],
   target_scale_clamped.2 ScaleEvent.increaseKey 1 (by norm_num) (by norm_num)⟩

/-- Claim C6: two consecutive samples mapping to the same image perform
at most one swap — the second delivery leaves the display state (image,
render log and all) unchanged. -/
theorem update_image_idempotent (th v₁ v₂ : ℚ) (s : DisplayState)
    (h : selectImage th v₁ = selectImage th v₂) :
    update_image th v₂ (update_image th v₁ s) = update_image th v₁ s := by
  conv_lhs => rw [update_image]
  rw [if_neg]
  exact not_not_intro (by rw [update_image_currentImage, h])

/-- Witness for C6: delivering the sample 0.1 twice with threshold 0.2
leaves the state reached after the first delivery unchanged. -/
theorem update_image_idempotent_witness :
    update_image (1/5) (1/10) (update_image (1/5) (1/10) initialDisplay) =
      update_image (1/5) (1/10) initialDisplay :=
  update_image_idempotent (1/5) (1/10) (1/10) initialDisplay rfl

/-- Counterexample to C2 as stated: the target never appears and
`stop()` is called at time 1, one second into the 15-second retry wait
that spans [0 s, 15 s).  `time.sleep(15)` is not interrupted — the flag
is next read at the outer loop head — so the worker exits only at
time 15, a latency of 14 s, not within 500 ms (let alone a few
milliseconds). -/
theorem stop_latency_counterexample :
    (monitorRun (absentEnv 1) 1).phase = .searching ∧
    (monitorRun (absentEnv 1) 1).time = 15 ∧
    (monitorRun (absentEnv 1) 2).phase = .exited ∧
    (monitorRun (absentEnv 1) 2).time = 15 ∧
    ¬ ((monitorRun (absentEnv 1) 2).time - 1 ≤ 1/2) := by
  obtain ⟨hp1, ht1⟩ := monitorRun_absent_searching 1 1 (by
    intro j hj
    interval_cases j
    norm_num)
  have h2 : monitorRun (absentEnv 1) 2 =
      { monitorRun (absentEnv 1) 1 with phase := .exited } := by
    rw [monitorRun_succ]
    exact monitorStep_searching_stop _ _ hp1 (by rw [ht1]; norm_num [absentEnv])
  refine ⟨hp1, by rw [ht1]; norm_num, by rw [h2], by rw [h2]; simp only; rw [ht1]; norm_num, ?_⟩
  rw [h2]
  simp only
  rw [ht1]
  norm_num

/-- Amended C2: if `stop()` is requested at time σ strictly inside the
k-th retry wait (15k < σ ≤ 15(k+1)) while the target never appears, the
worker exits only at the end of that wait, time 15(k+1) — the latency is
up to the full remaining wait, bounded by 15 s, not by a few
milliseconds. -/
theorem stop_latency_searching (k : ℕ) (σ : ℚ)
    (h1 : 15 * (k : ℚ) < σ) (h2 : σ ≤ 15 * ((k : ℚ) + 1)) :
    (monitorRun (absentEnv σ) (k + 2)).phase = .exited ∧
    (monitorRun (absentEnv σ) (k + 2)).time = 15 * ((k : ℚ) + 1) ∧
    15 * ((k : ℚ) + 1) - σ < 15 := by
  obtain ⟨hp, ht⟩ := monitorRun_absent_searching σ (k + 1) (by
    intro j hj
    have hc : (j : ℚ) ≤ (k : ℚ) := by exact_mod_cast Nat.lt_succ_iff.mp hj
    nlinarith)
  have htime : (monitorRun (absentEnv σ) (k + 1)).time = 15 * ((k : ℚ) + 1) := by
    rw [ht]
    push_cast
    ring
  have hstep : monitorRun (absentEnv σ) (k + 2) =
      { monitorRun (absentEnv σ) (k + 1) with phase := .exited } := by
    rw [show k + 2 = (k + 1) + 1 by omega, monitorRun_succ]
    exact monitorStep_searching_stop _ _ hp (by rw [htime]; simp only [absentEnv]; linarith)
  refine ⟨by rw [hstep], by rw [hstep]; simp only; exact htime, by linarith⟩

/-- Witness for the amended C2: stop at time 1 during the first wait —
the worker exits at time 15 with latency 14 < 15 s. -/
theorem stop_latency_searching_witness :
    (monitorRun (absentEnv 1) (0 + 2)).phase = .exited ∧
    (monitorRun (absentEnv 1) (0 + 2)).time = 15 * ((0 : ℚ) + 1) ∧
    15 * ((0 : ℚ) + 1) - 1 < 15 :=
  stop_latency_searching 0 1 (by norm_num) (by norm_num)

/-- Claim C3: once attached, a meter-read failure at a flag check that
still sees the monitor running emits the sample 0.0, logs the error
(error counter bumped), and polling continues at the same 100 ms
cadence; and however many steps follow — failures included — the worker
never returns to the Searching phase. -/
theorem attached_read_failure (env : MonitorEnv) (c : MCfg)
    (hph : c.phase = .attached) :
    (c.time < env.stopAt → env.readPeak c.time = none →
       monitorStep env c =
         { c with emits := c.emits ++ [(c.time, 0)], errors := c.errors + 1,
                  time := c.time + 1/10 }) ∧
    (∀ n, (monitorSteps env n c).phase ≠ .searching) := by
  constructor
  · intro ht hr
    exact monitorStep_attached_err env c hph ht hr
  · intro n
    induction n with
    | zero =>
      rw [monitorSteps, hph]
      exact fun h => MPhase.noConfusion h
    | succ n ih =>
      rw [monitorSteps]
      exact monitorStep_not_searching env _ ih

/-- Witness for C3: in an environment where every read fails and stop
comes at time 1, one failing step from an attached configuration at
time 0 emits 0.0, counts the error and moves to the next 100 ms poll;
after three further steps the worker still is not Searching. -/
theorem attached_read_failure_witness :
    monitorStep (absentEnv 1) attachedCfg =
      { phase := .attached, time := 1/10, emits := [(0, 0)], errors := 1 } ∧
    (monitorSteps (absentEnv 1) 3 attachedCfg).phase ≠ .searching := by
  have h := attached_read_failure (absentEnv 1) attachedCfg rfl
  refine ⟨?_, h.2 3⟩
  rw [h.1 (by norm_num [absentEnv, attachedCfg]) rfl]
  norm_num [attachedCfg]

/-- Claim C7: in the Searching phase with the monitor still running,
session matching is an exact case-insensitive comparison of the owning
process name with the target (`isSome` iff such a session exists); no
match emits exactly one 0.0 sample, waits 15 s and stays Searching; a
match transitions to Attached with nothing emitted; and once attached a
successful read emits the peak value and polls again 100 ms later. -/
theorem searching_behavior (env : MonitorEnv) (c : MCfg)
    (hph : c.phase = .searching) (hrun : c.time < env.stopAt) :
    ((findTargetSession (env.sessionsAt c.time) env.target).isSome ↔
       ∃ s ∈ env.sessionsAt c.time, ∃ n, s.processName = some n ∧
         n.toLower = env.target.toLower) ∧
    (findTargetSession (env.sessionsAt c.time) env.target = none →
       monitorStep env c =
         { c with emits := c.emits ++ [(c.time, 0)], time := c.time + 15 }) ∧
    ((findTargetSession (env.sessionsAt c.time) env.target).isSome →
       monitorStep env c = { c with phase := .attached }) ∧
    (∀ (c' : MCfg) (v : ℚ), c'.phase = .attached → c'.time < env.stopAt →
       env.readPeak c'.time = some v →
       monitorStep env c' =
         { c' with emits := c'.emits ++ [(c'.time, v)], time := c'.time + 1/10 }) := by
  refine ⟨?_, ?_, ?_, ?_⟩
  · rw [findTargetSession, List.find?_isSome]
    constructor
    · rintro ⟨s, hmem, hp⟩
      rcases hn : s.processName with _ | n
      · rw [hn] at hp
        exact absurd hp (by simp)
      · rw [hn] at hp
        exact ⟨s, hmem, n, hn, by simpa using hp⟩
    · rintro ⟨s, hmem, n, hn, hl⟩
      refine ⟨s, hmem, ?_⟩
      rw [hn]
      simpa using hl
  · intro hfind
    exact monitorStep_searching_none env c hph hrun hfind
  · intro hfind
    exact monitorStep_searching_found env c hph hrun hfind
  · intro c' v hph' hrun' hr
    exact monitorStep_attached_ok env c' v hph' hrun' hr

/-- Witness for C7: with one session named exactly like the target, the
search at time 0 (stop at time 1) finds it and transitions to Attached;
and a successful attached read at time 0 emits 0.5 and repolls at
0.1 s. -/
theorem searching_behavior_witness :
    (findTargetSession (presentEnv.sessionsAt 0) presentEnv.target).isSome ∧
    monitorStep presentEnv initialMCfg = { initialMCfg with phase := .attached } ∧
    monitorStep presentEnv attachedCfg =
      { attachedCfg with emits := attachedCfg.emits ++ [(0, 1/2)],
                         time := (0 : ℚ) + 1/10 } := by
  have h := searching_behavior presentEnv initialMCfg rfl
    (by norm_num [presentEnv, initialMCfg])
  have hsome : (findTargetSession (presentEnv.sessionsAt initialMCfg.time)
      presentEnv.target).isSome := by
    apply h.1.mpr
    exact ⟨{ processName := some "edcopilot.exe" }, by simp [presentEnv],
      "edcopilot.exe", rfl, rfl⟩
  exact ⟨hsome, h.2.2.1 hsome,
    h.2.2.2 attachedCfg (1/2) rfl (by norm_num [presentEnv, attachedCfg]) rfl⟩

/-- Claim C8: `stop()` only clears the running flag — a pure,
non-blocking state update — and `closeEvent` requests stop, waits on the
join for at most 2 s whatever the worker's termination time is, and
accepts the close event (proceeds with shutdown) regardless. -/
theorem stop_nonblocking_close (m : MonitorCtl) (termAt : Option ℚ) :
    stop m = { running := false } ∧
    (closeEvent m termAt).monitorAfterStop = stop m ∧
    (closeEvent m termAt).joinWaited ≤ 2 ∧
    (closeEvent m termAt).accepted = true := by
  refine ⟨rfl, rfl, ?_, rfl⟩
  rcases termAt with _ | tt
  · exact le_refl 2
  · exact min_le_right tt 2

/-- Claim C9: when either configured image file is missing at startup,
`App.__init__` prints a diagnostic and exits with code 1, and the
startup trace contains no image load and no monitor start. -/
theorem missing_image_aborts (fs : String → Bool) (cfg : AppConfig)
    (h : fs cfg.imageHigh = false ∨ fs cfg.imageLow = false) :
    appInit fs cfg = ([.verifyImages, .printDiagnostic, .exitProgram 1], none) ∧
    InitAction.loadImages ∉ (appInit fs cfg).1 ∧
    InitAction.startMonitor ∉ (appInit fs cfg).1 ∧
    InitAction.exitProgram 1 ∈ (appInit fs cfg).1 := by
  have hcond : ¬ fs cfg.imageHigh ∨ ¬ fs cfg.imageLow := by
    rcases h with h | h
    · exact Or.inl (by rw [h]; exact Bool.false_ne_true)
    · exact Or.inr (by rw [h]; exact Bool.false_ne_true)
  have happ : appInit fs cfg =
      ([.verifyImages, .printDiagnostic, .exitProgram 1], none) := by
    rw [appInit, if_pos hcond]
  refine ⟨happ, ?_, ?_, ?_⟩ <;> rw [happ] <;> decide

/-- Witness for C9: with a filesystem on which no file exists, startup
aborts with exit code 1 and neither loads images nor starts the
monitor. -/
theorem missing_image_aborts_witness :
    appInit (fun _ => false) sampleConfig =
      ([.verifyImages, .printDiagnostic, .exitProgram 1], none) ∧
    InitAction.loadImages ∉ (appInit (fun _ => false) sampleConfig).1 ∧
    InitAction.startMonitor ∉ (appInit (fun _ => false) sampleConfig).1 ∧
    InitAction.exitProgram 1 ∈ (appInit (fun _ => false) sampleConfig).1 :=
  missing_image_aborts (fun _ => false) sampleConfig (Or.inl rfl)

/-- Claim C10: when both images exist and the configured threshold is
nonnegative, startup delivers the synthetic sample 0.0 to itself, so the
initial state selects the Low image and renders it once at scale 1.0,
after loading images and starting the monitor. -/
theorem startup_initial_low (fs : String → Bool) (cfg : AppConfig)
    (h1 : fs cfg.imageHigh = true) (h2 : fs cfg.imageLow = true)
    (h3 : 0 ≤ cfg.volumeThreshold) :
    (appInit fs cfg).1 =
      [.verifyImages, .loadImages, .startMonitor, .deliverInitialSample] ∧
    (appInit fs cfg).2 =
      some { currentImage := some .low, scale := 1, targetScale := 1,
             renders := [(.low, 1)] } := by
  have hcond : ¬ (¬ fs cfg.imageHigh ∨ ¬ fs cfg.imageLow) := by
    rw [h1, h2]
    simp
  have hsel : selectImage cfg.volumeThreshold 0 = .low := by
    rw [selectImage, if_neg (not_lt.mpr h3)]
  have happ : appInit fs cfg =
      ([.verifyImages, .loadImages, .startMonitor, .deliverInitialSample],
        some (update_image cfg.volumeThreshold 0
          { currentImage := none, scale := 1, targetScale := 1, renders := [] })) := by
    rw [appInit, if_neg hcond]
  refine ⟨by rw [happ], ?_⟩
  rw [happ]
  simp only [update_image, hsel]
  rw [if_pos (by simp)]
  simp

/-- Witness for C10: with every file present and the default threshold
0.2, startup renders the Low image once at scale 1.0. -/
theorem startup_initial_low_witness :
    (appInit (fun _ => true) sampleConfig).1 =
      [.verifyImages, .loadImages, .startMonitor, .deliverInitialSample] ∧
    (appInit (fun _ => true) sampleConfig).2 =
      some { currentImage := some .low, scale := 1, targetScale := 1,
             renders := [(.low, 1)] } :=
  startup_initial_low (fun _ => true) sampleConfig rfl rfl (by norm_num [sampleConfig])

end PNGtuber
